import Mathlib

/-!
# Verification of the document-creation workflow (`doc_workflow.py`)

Shallow embedding of `src/mirascope/doc_workflow.py`. The three pydantic
models become Lean structures; the LLM-backed methods (`create_outline`,
`validate_outline`, `generate_document`) are split into their pure
prompt-building bodies plus a `Port` oracle that supplies the parsed
response for each call, indexed by attempt number (calls happen strictly
sequentially). `run` is the bounded draft/validate/generate loop; it
returns the result (`Except GenError String`, an error modelling an
exception propagating out of `run`) together with the ordered trace of
port calls and printed progress notices.
-/

namespace DocWorkflow

/-- `OutlineSection` pydantic model: recursive tree node with `title`,
`key_points`, and nested `subsections`. -/
inductive OutlineSection where
  | mk (title : String) (key_points : List String) (subsections : List OutlineSection)

/-- `OutlineCriteria` pydantic model: validation verdict. -/
structure OutlineCriteria where
  meets_requirements : Bool
  missing_elements : List String := []
  suggestions : List String := []

/-- `DocumentContent` pydantic model: final document. -/
structure DocumentContent where
  content : String
  sections_covered : List String

/-- The agent's configuration fields (`messages` is declared in the source but
never read by the workflow; `max_retries` defaults to 3). Python's `int` is
modelled as `Nat`: the loop only distinguishes values `≥ 0`, and a negative
`max_retries` behaves exactly like `0` (the while loop body never runs). -/
structure DocumentWorkflowAgent where
  messages : List String := []
  max_retries : Nat := 3

/-! ## Python textual rendering

The source interpolates lists and pydantic models into f-strings
(`f"{validation.missing_elements}"`, `f"{outline}"`, `f"... {validation}"`).
The functions below model CPython/pydantic-v2 rendering: `str` of a list
renders `repr` of each element, comma-space separated, in square brackets;
`str` of a pydantic model is the space-separated `field=repr(value)` list;
`repr` of a model is `ClassName(field=value, ...)`. `repr` of a `str` is
modelled with CPython's quote choice and escaping (backslash, the quote
character, `\t`/`\n`/`\r`, `\xHH` for the remaining control characters and
DEL), exactly as CPython renders ASCII text; characters above `0x7f` are
rendered verbatim, as CPython does for printable characters — the
Unicode-database-driven `\uXXXX` escaping of non-printable non-ASCII
characters is the one part not modelled, and no theorem below relates a raw
element to a rendered string outside the ASCII `pyPlain` class. -/

/-- The single-quote character `0x27`. -/
def squoteChar : Char := Char.ofNat 39

/-- The backslash character `0x5c`. -/
def backslashChar : Char := Char.ofNat 92

/-- Lowercase hexadecimal digit, as CPython prints in `\xHH` escapes. -/
def hexDigitChar (n : Nat) : Char :=
  if n < 10 then Char.ofNat (48 + n) else Char.ofNat (87 + n)

/-- Two lowercase hexadecimal digits of a byte. -/
def hexByte (n : Nat) : String :=
  String.singleton (hexDigitChar (n / 16)) ++ String.singleton (hexDigitChar (n % 16))

/-- CPython's rendering of one character inside a string `repr` using the
given quote character: the quote and the backslash get a backslash; tab,
newline and carriage return use their two-character escapes; the remaining
control characters and DEL use `\xHH`; every other character stands for
itself. -/
def pyEscapeChar (quote ch : Char) : String :=
  if ch = quote ∨ ch = backslashChar then
    String.singleton backslashChar ++ String.singleton ch
  else if ch = Char.ofNat 9 then "\\t"
  else if ch = Char.ofNat 10 then "\\n"
  else if ch = Char.ofNat 13 then "\\r"
  else if ch.toNat < 0x20 ∨ ch.toNat = 0x7f then "\\x" ++ hexByte ch.toNat
  else String.singleton ch

/-- The escaped body of a string `repr`. -/
def pyEscape (quote : Char) : List Char → String
  | [] => ""
  | ch :: rest => pyEscapeChar quote ch ++ pyEscape quote rest

/-- CPython's quote choice for a string `repr`: double quotes when the text
contains a single quote but no double quote, single quotes otherwise. -/
def pyQuoteChar (s : String) : Char :=
  if squoteChar ∈ s.data ∧ '"' ∉ s.data then '"' else squoteChar

/-- Python `repr` of a string: chosen quote, escaped body, chosen quote. -/
def pyReprStr (s : String) : String :=
  String.singleton (pyQuoteChar s) ++ pyEscape (pyQuoteChar s) s.data
    ++ String.singleton (pyQuoteChar s)

/-- A character that CPython reprs as itself inside single quotes: printable
ASCII other than the single quote and the backslash. -/
def pyPlainChar (ch : Char) : Bool :=
  decide (0x20 ≤ ch.toNat) && decide (ch.toNat ≤ 0x7e)
    && ch != squoteChar && ch != backslashChar

/-- A string whose `repr` is itself wrapped in single quotes. -/
def pyPlain (s : String) : Bool := s.data.all pyPlainChar

/-- Elements of a Python list display, comma-space separated. -/
def pyStrListInner : List String → String
  | [] => ""
  | [s] => pyReprStr s
  | s :: rest => pyReprStr s ++ ", " ++ pyStrListInner rest

/-- Python `str` of a list of strings, e.g. `['a', 'b']`. -/
def pyStrList (xs : List String) : String := "[" ++ pyStrListInner xs ++ "]"

/-- Python `str` of a bool: `True` / `False`. -/
def pyBool (b : Bool) : String := if b then "True" else "False"

mutual

/-- Python/pydantic `repr` of an `OutlineSection`. -/
def pyReprSection : OutlineSection → String
  | .mk t kps subs =>
      "OutlineSection(title=" ++ pyReprStr t ++ ", key_points=" ++ pyStrList kps
        ++ ", subsections=[" ++ pyReprSections subs ++ "])"

/-- Comma-space separated `repr`s of a list of sections. -/
def pyReprSections : List OutlineSection → String
  | [] => ""
  | [s] => pyReprSection s
  | s :: rest => pyReprSection s ++ ", " ++ pyReprSections rest

end

/-- Python `str` of a `List[OutlineSection]` value. -/
def pyReprOutline (xs : List OutlineSection) : String := "[" ++ pyReprSections xs ++ "]"

/-- Python `str` of the `outline` argument of `generate_document`, which `run`
may pass as `None` (rendered `None`). -/
def pyOptOutline : Option (List OutlineSection) → String
  | none => "None"
  | some xs => pyReprOutline xs

/-- Python/pydantic `str` of an `OutlineCriteria` verdict. -/
def pyCriteriaStr (v : OutlineCriteria) : String :=
  "meets_requirements=" ++ pyBool v.meets_requirements
    ++ " missing_elements=" ++ pyStrList v.missing_elements
    ++ " suggestions=" ++ pyStrList v.suggestions

/-! ## Prompt construction (the pure bodies of the three decorated methods) -/

/-- The f-string assigned to `prompt` in `create_outline` before the feedback
conditional (exact text, including the triple-quoted literal's indentation). -/
def outlineBasePrompt (topic requirements : String) : String :=
  "Create a structured document outline for: " ++ topic
    ++ "\n                    Requirements: " ++ requirements
    ++ "\n                    "

/-- Body of `create_outline`: builds the drafting instructions; the
`Previous feedback to address` clause is appended only when `feedback` is
truthy (non-empty). -/
def create_outline_prompt (topic requirements feedback : String) : String :=
  if feedback = "" then outlineBasePrompt topic requirements
  else outlineBasePrompt topic requirements ++ "\nPrevious feedback to address: " ++ feedback

/-- Body of `validate_outline`: the validation instructions. -/
def validate_outline_prompt (outline : List OutlineSection) (criteria : String) : String :=
  "Evaluate this outline against the following criteria:\n                  "
    ++ criteria
    ++ "\n                  \n                  Outline to evaluate:\n                  "
    ++ pyReprOutline outline
    ++ "  \n                "

/-- The f-string assigned to `prompt` in `generate_document` before the
suggestions conditional. -/
def documentBasePrompt (outline : Option (List OutlineSection)) : String :=
  "Write a complete document following this outline:\n                  "
    ++ pyOptOutline outline
    ++ "\n                  \n                  Ensure each section addresses all key points listed."

/-- `prompt += f"- {suggestion}"` for each suggestion, in order, with no
separator between consecutive suggestions. -/
def suggestionLines : List String → String
  | [] => ""
  | s :: rest => "- " ++ s ++ suggestionLines rest

/-- Body of `generate_document`: the suggestions clause is appended only when
`validation` is truthy (not `None`; a pydantic model instance is always
truthy) and `validation.suggestions` is a non-empty list. -/
def generate_document_prompt (outline : Option (List OutlineSection))
    (validation : Option OutlineCriteria) : String :=
  match validation with
  | none => documentBasePrompt outline
  | some v =>
      if v.suggestions = [] then documentBasePrompt outline
      else documentBasePrompt outline ++ "\nPlease incorporate these suggestions:\n"
        ++ suggestionLines v.suggestions

/-! ## The Generation Port oracle and the observable trace -/

/-- An exception raised by a Generation Port call (`str(e)` is `message`). -/
structure GenError where
  message : String

/-- Oracle for the Generation Port: the parsed response (or raised error) of
each call. Calls happen strictly sequentially, so the outline and validation
responses are indexed by the 0-based attempt number; at most one
document-generation call can ever happen. -/
structure Port where
  outlineResp : Nat → Except GenError (List OutlineSection)
  valResp : Nat → Except GenError OutlineCriteria
  docResp : Except GenError DocumentContent

/-- One observable event of `run`: a Generation Port call (recorded with its
arguments) or a printed progress notice (the exact string passed to
`print`). -/
inductive Event where
  | notice (msg : String)
  | draftCall (topic requirements feedback : String)
  | validateCall (outline : List OutlineSection) (criteria : String)
  | docCall (outline : Option (List OutlineSection)) (validation : Option OutlineCriteria)

/-- `feedback = f"{validation.missing_elements}\n{validation.suggestions}"`. -/
def feedbackString (v : OutlineCriteria) : String :=
  pyStrList v.missing_elements ++ "\n" ++ pyStrList v.suggestions

/-- `feedback = f"..." if validation else ""`: the conditional expression of
line 74 of the source, as a function of the loop's `validation` variable. -/
def feedbackOf : Option OutlineCriteria → String
  | some v => feedbackString v
  | none => ""

/-- The notice printed at the top of attempt `i` (0-based; the print shows it
1-based). -/
def attemptNoticeStr (i : Nat) : String :=
  "\nAttempt " ++ toString (i + 1) ++ ": "
    ++ (if i = 0 then "Creating" else "Revising") ++ " outline..."

/-- The notice printed after the draft call of attempt `i` returns `o`. -/
def createdNoticeStr (i : Nat) (o : List OutlineSection) : String :=
  (if i = 0 then "Initial" else "Revised") ++ " outline created: " ++ pyReprOutline o

/-- The notice printed after the validation call returns `v`. -/
def validationNoticeStr (v : OutlineCriteria) : String :=
  "Validation results: " ++ pyCriteriaStr v

/-- The notice printed when the retry budget is exhausted. -/
def exhaustNoticeStr (n : Nat) : String :=
  "\nFailed to create satisfactory outline after " ++ toString n ++ " attempts"

/-- The failure text returned when the retry budget is exhausted. -/
def failureText (v : OutlineCriteria) : String :=
  "Failed to create satisfactory outline. Last validation: " ++ pyCriteriaStr v

/-- Step 3 of `run`: print the notice, call `generate_document` with the
current `outline` and `validation`, and return `document.content`. -/
def step3 (port : Port) (outline : Option (List OutlineSection))
    (validation : Option OutlineCriteria) : Except GenError String × List Event :=
  match port.docResp with
  | .error e => (.error e, [.notice "\nGenerating final document...", .docCall outline validation])
  | .ok d => (.ok d.content, [.notice "\nGenerating final document...", .docCall outline validation])

/-- The `while attempt < self.max_retries` loop of `run`, translated with a
structural fuel argument `remaining`; `run` starts it with `attempt = 0` and
`remaining = max_retries`, so `attempt + remaining = max_retries` throughout
and `remaining > 0` iff `attempt < max_retries`. When the condition fails the
control falls through to step 3 with the current `outline`/`validation`. -/
def loopRun (a : DocumentWorkflowAgent) (port : Port) (topic requirements criteria : String)
    (attempt : Nat) (outline : Option (List OutlineSection))
    (validation : Option OutlineCriteria) : Nat → Except GenError String × List Event
  | 0 => step3 port outline validation
  | remaining + 1 =>
    let startNotice := Event.notice (attemptNoticeStr attempt)
    let feedback := feedbackOf validation
    match port.outlineResp attempt with
    | .error e => (.error e, [startNotice, .draftCall topic requirements feedback])
    | .ok o =>
      let createdNotice := Event.notice (createdNoticeStr attempt o)
      match port.valResp attempt with
      | .error e => (.error e, [startNotice, .draftCall topic requirements feedback,
          createdNotice, .notice "Validating outline...", .validateCall o criteria])
      | .ok v =>
        let cycle := [startNotice, .draftCall topic requirements feedback, createdNotice,
          .notice "Validating outline...", .validateCall o criteria,
          .notice (validationNoticeStr v)]
        if v.meets_requirements then
          let rest := step3 port (some o) (some v)
          (rest.1, cycle ++ [.notice "\nOutline meets all requirements!"] ++ rest.2)
        else if attempt + 1 = a.max_retries then
          (.ok (failureText v), cycle ++ [.notice (exhaustNoticeStr a.max_retries)])
        else
          let rest := loopRun a port topic requirements criteria (attempt + 1)
            (some o) (some v) remaining
          (rest.1, cycle ++ rest.2)

/-- `DocumentWorkflowAgent.run`: execute the workflow against the given port.
The surrounding `try/except` prints `Error in workflow: {str(e)}` and
re-raises unchanged, so an error result carries one final diagnostic notice. -/
def run (a : DocumentWorkflowAgent) (port : Port) (topic requirements criteria : String) :
    Except GenError String × List Event :=
  let r := loopRun a port topic requirements criteria 0 none none a.max_retries
  match r.1 with
  | .error e => (.error e, r.2 ++ [.notice ("Error in workflow: " ++ e.message)])
  | .ok s => (.ok s, r.2)

/-! ## Scenario vocabulary for the theorems -/

/-- A port that never fails: attempt `i` drafts `O i` and is judged `V i`;
the document call (if reached) returns `D`. -/
def okPort (O : Nat → List OutlineSection) (V : Nat → OutlineCriteria)
    (D : DocumentContent) : Port :=
  { outlineResp := fun i => .ok (O i)
    valResp := fun i => .ok (V i)
    docResp := .ok D }

/-- The feedback text `run` passes to the draft call of attempt `i`: empty on
the first attempt, otherwise built from the previous attempt's verdict. -/
def fbAt (V : Nat → OutlineCriteria) : Nat → String
  | 0 => ""
  | i + 1 => feedbackString (V i)

/-- The loop's `outline` variable at entry to attempt `i` (given that every
earlier attempt drafted `O j`). -/
def oState (O : Nat → List OutlineSection) : Nat → Option (List OutlineSection)
  | 0 => none
  | i + 1 => some (O i)

/-- The loop's `validation` variable at entry to attempt `i`. -/
def vState (V : Nat → OutlineCriteria) : Nat → Option OutlineCriteria
  | 0 => none
  | i + 1 => some (V i)

/-- The six events of one completed draft/validate cycle at attempt `i`,
when the port answers `O i` and `V i`. -/
def cycleEvents (O : Nat → List OutlineSection) (V : Nat → OutlineCriteria)
    (t r c : String) (i : Nat) : List Event :=
  [.notice (attemptNoticeStr i),
    .draftCall t r (fbAt V i),
    .notice (createdNoticeStr i (O i)),
    .notice "Validating outline...",
    .validateCall (O i) c,
    .notice (validationNoticeStr (V i))]

/-- Is this event an outline-drafting port call? -/
def Event.isDraft : Event → Bool
  | .draftCall .. => true
  | _ => false

/-- Is this event a validation port call? -/
def Event.isValidate : Event → Bool
  | .validateCall .. => true
  | _ => false

/-- Is this event a document-generation port call? -/
def Event.isDoc : Event → Bool
  | .docCall .. => true
  | _ => false

/-- Number of draft calls in a trace. -/
def draftCount (evs : List Event) : Nat := evs.countP Event.isDraft

/-- Number of validation calls in a trace. -/
def validateCount (evs : List Event) : Nat := evs.countP Event.isValidate

/-- Number of document-generation calls in a trace. -/
def docCount (evs : List Event) : Nat := evs.countP Event.isDoc

/-- The arguments of the validation calls of a trace, in call order. -/
def validateArgs : List Event → List (List OutlineSection × String)
  | [] => []
  | .validateCall o c :: rest => (o, c) :: validateArgs rest
  | _ :: rest => validateArgs rest

/-- The arguments of the outline-drafting calls of a trace, in call order. -/
def draftArgs : List Event → List (String × String × String)
  | [] => []
  | .draftCall t r f :: rest => (t, r, f) :: draftArgs rest
  | _ :: rest => draftArgs rest

/-- `s` occurs (contiguously) inside `t`. -/
def SubstrOf (s t : String) : Prop := ∃ p q, t = p ++ s ++ q

/-- Modelled from the spec (§4.2.2a, claim C4 wording): "the concatenation of
the previous validation's `missing_elements` and `suggestions` (textual join,
newline-separated)" — the elements of the two fields joined by newlines. To
be compared with `feedbackString`, the feedback the source actually builds. -/
def specFeedbackJoin (v : OutlineCriteria) : String :=
  String.intercalate "\n" (v.missing_elements ++ v.suggestions)

/-! ## Concrete fixtures used by witnesses -/

/-- A concrete per-attempt outline response. -/
def wO : Nat → List OutlineSection := fun _ =>
  [OutlineSection.mk "Intro" ["point one"] []]

/-- Concrete verdicts: attempt 0 rejects with one gap and one suggestion,
every later attempt accepts. -/
def wV : Nat → OutlineCriteria := fun i =>
  if i = 0 then ⟨false, ["examples"], ["add case study"]⟩ else ⟨true, [], []⟩

/-- Concrete verdicts that always reject. -/
def wVfail : Nat → OutlineCriteria := fun _ =>
  ⟨false, ["examples"], ["add case study"]⟩

/-- A concrete generated document. -/
def wD : DocumentContent := ⟨"final document", ["Intro"]⟩

/-- A concrete port error. -/
def wE : GenError := ⟨"boom"⟩

/-- Concrete verdicts whose gap and suggestion both contain a newline, so
CPython's `repr` escapes them in any rendering. -/
def wVesc : Nat → OutlineCriteria := fun _ =>
  ⟨false, ["a\nb"], ["c\nd"]⟩

/-! ## Basic lemmas -/

theorem SubstrOf.append_left {s t : String} (u : String) (h : SubstrOf s t) :
    SubstrOf s (u ++ t) := by
  obtain ⟨p, q, rfl⟩ := h
  exact ⟨u ++ p, q, by simp [String.append_assoc]⟩

theorem SubstrOf.append_right {s t : String} (u : String) (h : SubstrOf s t) :
    SubstrOf s (t ++ u) := by
  obtain ⟨p, q, rfl⟩ := h
  exact ⟨p, q ++ u, by simp [String.append_assoc]⟩

theorem SubstrOf.trans {s t u : String} (h1 : SubstrOf s t) (h2 : SubstrOf t u) :
    SubstrOf s u := by
  obtain ⟨p, q, rfl⟩ := h1
  obtain ⟨p', q', rfl⟩ := h2
  exact ⟨p' ++ p, q ++ q', by simp [String.append_assoc]⟩

theorem SubstrOf.mem_data {s t : String} (h : SubstrOf s t) {ch : Char}
    (hch : ch ∈ s.data) : ch ∈ t.data := by
  obtain ⟨p, q, rfl⟩ := h
  rw [String.data_append, String.data_append]
  simp [hch]

theorem pyQuoteChar_of_plain {s : String} (h : pyPlain s = true) :
    pyQuoteChar s = squoteChar := by
  rw [pyQuoteChar, if_neg]
  rintro ⟨hmem, -⟩
  have := (List.all_eq_true.mp h) squoteChar hmem
  simp [pyPlainChar, squoteChar] at this

theorem pyEscapeChar_of_plain {ch : Char} (h : pyPlainChar ch = true) :
    pyEscapeChar squoteChar ch = String.singleton ch := by
  simp only [pyPlainChar, Bool.and_eq_true, decide_eq_true_eq, bne_iff_ne] at h
  obtain ⟨⟨⟨hlo, hhi⟩, hq⟩, hb⟩ := h
  rw [pyEscapeChar, if_neg (by rintro (rfl | rfl) <;> simp at hq hb), if_neg, if_neg,
    if_neg, if_neg]
  · rintro (hc | hc)
    · omega
    · omega
  · rintro rfl
    simp [Char.ofNat] at hlo
  · rintro rfl
    simp [Char.ofNat] at hlo
  · rintro rfl
    simp [Char.ofNat] at hlo

theorem pyEscape_of_plain : ∀ {l : List Char}, (∀ ch ∈ l, pyPlainChar ch = true) →
    pyEscape squoteChar l = ⟨l⟩
  | [], _ => rfl
  | ch :: rest, h => by
      rw [pyEscape, pyEscapeChar_of_plain (h ch (List.mem_cons_self ch rest)),
        pyEscape_of_plain (fun x hx => h x (List.mem_cons_of_mem ch hx))]
      apply String.ext
      simp [String.singleton]

/-- A `pyPlain` string is rendered verbatim between single quotes. -/
theorem pyReprStr_of_plain {s : String} (h : pyPlain s = true) :
    pyReprStr s = "\x27" ++ s ++ "\x27" := by
  rw [pyReprStr, pyQuoteChar_of_plain h, pyEscape_of_plain (List.all_eq_true.mp h)]
  rfl

theorem substrOf_self_of_plain {s : String} (h : pyPlain s = true) :
    SubstrOf s (pyReprStr s) :=
  ⟨"\x27", "\x27", pyReprStr_of_plain h⟩

theorem substrOf_repr_pyStrListInner {s : String} : ∀ {xs : List String}, s ∈ xs →
    SubstrOf (pyReprStr s) (pyStrListInner xs)
  | [], h => absurd h (List.not_mem_nil s)
  | [x], h => by
      obtain rfl : s = x := by simpa using h
      exact ⟨"", "", by simp [pyStrListInner]⟩
  | x :: y :: rest, h => by
      rcases List.mem_cons.mp h with rfl | hmem
      · exact ⟨"", ", " ++ pyStrListInner (y :: rest),
          by simp [pyStrListInner, String.append_assoc]⟩
      · exact (substrOf_repr_pyStrListInner hmem).append_left (pyReprStr x ++ ", ")

theorem substrOf_within_pyStrList {w : String} {xs : List String}
    (h : SubstrOf w (pyStrListInner xs)) : SubstrOf w (pyStrList xs) :=
  (h.append_left "[").append_right "]"

theorem substrOf_missing_pyCriteriaStr {w : String} {v : OutlineCriteria}
    (h : SubstrOf w (pyStrList v.missing_elements)) : SubstrOf w (pyCriteriaStr v) :=
  ((h.append_left
      ("meets_requirements=" ++ pyBool v.meets_requirements ++ " missing_elements=")).append_right
    " suggestions=").append_right (pyStrList v.suggestions)

theorem substrOf_sugg_pyCriteriaStr {w : String} {v : OutlineCriteria}
    (h : SubstrOf w (pyStrList v.suggestions)) : SubstrOf w (pyCriteriaStr v) :=
  h.append_left
    ("meets_requirements=" ++ pyBool v.meets_requirements ++ " missing_elements="
      ++ pyStrList v.missing_elements ++ " suggestions=")

theorem substrOf_failureText {s : String} {v : OutlineCriteria}
    (h : SubstrOf s (pyCriteriaStr v)) : SubstrOf s (failureText v) :=
  h.append_left "Failed to create satisfactory outline. Last validation: "

theorem substrOf_missing_feedbackString {w : String} {v : OutlineCriteria}
    (h : SubstrOf w (pyStrList v.missing_elements)) : SubstrOf w (feedbackString v) :=
  ((h.append_right "\n").append_right (pyStrList v.suggestions))

theorem substrOf_sugg_feedbackString {w : String} {v : OutlineCriteria}
    (h : SubstrOf w (pyStrList v.suggestions)) : SubstrOf w (feedbackString v) :=
  h.append_left (pyStrList v.missing_elements ++ "\n")

theorem feedbackString_ne_empty (v : OutlineCriteria) : feedbackString v ≠ "" := by
  intro h
  have hlen := congrArg String.length h
  rw [feedbackString, pyStrList, pyStrList] at hlen
  simp only [String.length_append] at hlen
  have h1 : "[".length = 1 := rfl
  have h2 : ("" : String).length = 0 := rfl
  omega

theorem feedbackOf_vState (V : Nat → OutlineCriteria) (i : Nat) :
    feedbackOf (vState V i) = fbAt V i := by
  cases i <;> rfl

theorem step3_trace (port : Port) (o : Option (List OutlineSection))
    (v : Option OutlineCriteria) :
    (step3 port o v).2 = [.notice "\nGenerating final document...", .docCall o v] := by
  cases h : port.docResp <;> simp [step3, h]

theorem draftCount_append (l₁ l₂ : List Event) :
    draftCount (l₁ ++ l₂) = draftCount l₁ + draftCount l₂ := by
  simp [draftCount, List.countP_append]

theorem validateCount_append (l₁ l₂ : List Event) :
    validateCount (l₁ ++ l₂) = validateCount l₁ + validateCount l₂ := by
  simp [validateCount, List.countP_append]

theorem docCount_append (l₁ l₂ : List Event) :
    docCount (l₁ ++ l₂) = docCount l₁ + docCount l₂ := by
  simp [docCount, List.countP_append]

theorem draftCount_cycle (O : Nat → List OutlineSection) (V : Nat → OutlineCriteria)
    (t r c : String) (i : Nat) : draftCount (cycleEvents O V t r c i) = 1 := by
  simp [cycleEvents, draftCount, List.countP_cons, Event.isDraft]

theorem validateCount_cycle (O : Nat → List OutlineSection) (V : Nat → OutlineCriteria)
    (t r c : String) (i : Nat) : validateCount (cycleEvents O V t r c i) = 1 := by
  simp [cycleEvents, validateCount, List.countP_cons, Event.isValidate]

theorem docCount_cycle (O : Nat → List OutlineSection) (V : Nat → OutlineCriteria)
    (t r c : String) (i : Nat) : docCount (cycleEvents O V t r c i) = 0 := by
  simp [cycleEvents, docCount, List.countP_cons, Event.isDoc]

theorem draftCount_cycles (O : Nat → List OutlineSection) (V : Nat → OutlineCriteria)
    (t r c : String) : ∀ n s,
    draftCount ((List.range' s n).flatMap (cycleEvents O V t r c)) = n := by
  intro n
  induction n with
  | zero => intro s; rfl
  | succ n ih =>
      intro s
      rw [List.range'_succ s n 1, List.flatMap_cons, draftCount_append, draftCount_cycle, ih]
      omega

theorem validateCount_cycles (O : Nat → List OutlineSection) (V : Nat → OutlineCriteria)
    (t r c : String) : ∀ n s,
    validateCount ((List.range' s n).flatMap (cycleEvents O V t r c)) = n := by
  intro n
  induction n with
  | zero => intro s; rfl
  | succ n ih =>
      intro s
      rw [List.range'_succ s n 1, List.flatMap_cons, validateCount_append,
        validateCount_cycle, ih]
      omega

theorem docCount_cycles (O : Nat → List OutlineSection) (V : Nat → OutlineCriteria)
    (t r c : String) : ∀ n s,
    docCount ((List.range' s n).flatMap (cycleEvents O V t r c)) = 0 := by
  intro n
  induction n with
  | zero => intro s; rfl
  | succ n ih =>
      intro s
      rw [List.range'_succ s n 1, List.flatMap_cons, docCount_append, docCount_cycle, ih]

theorem validateArgs_append (l₁ l₂ : List Event) :
    validateArgs (l₁ ++ l₂) = validateArgs l₁ ++ validateArgs l₂ := by
  induction l₁ with
  | nil => rfl
  | cons e rest ih => cases e <;> simp [validateArgs, ih]

theorem draftArgs_append (l₁ l₂ : List Event) :
    draftArgs (l₁ ++ l₂) = draftArgs l₁ ++ draftArgs l₂ := by
  induction l₁ with
  | nil => rfl
  | cons e rest ih => cases e <;> simp [draftArgs, ih]

theorem draftArgs_cycle (O : Nat → List OutlineSection) (V : Nat → OutlineCriteria)
    (t r c : String) (i : Nat) :
    draftArgs (cycleEvents O V t r c i) = [(t, r, fbAt V i)] := rfl

theorem validateArgs_cycle (O : Nat → List OutlineSection) (V : Nat → OutlineCriteria)
    (t r c : String) (i : Nat) :
    validateArgs (cycleEvents O V t r c i) = [(O i, c)] := rfl

/-! ## Loop-unfolding lemmas -/

theorem step3_ok (port : Port) (o : Option (List OutlineSection))
    (v : Option OutlineCriteria) (D : DocumentContent) (hD : port.docResp = .ok D) :
    step3 port o v =
      (.ok D.content, [.notice "\nGenerating final document...", .docCall o v]) := by
  simp [step3, hD]

theorem step3_err (port : Port) (o : Option (List OutlineSection))
    (v : Option OutlineCriteria) (e : GenError) (hD : port.docResp = .error e) :
    step3 port o v =
      (.error e, [.notice "\nGenerating final document...", .docCall o v]) := by
  simp [step3, hD]

/-- One draft/validate cycle whose verdict rejects, with budget left:
the loop recurses into the next attempt. -/
theorem loopRun_step_continue (a : DocumentWorkflowAgent) (port : Port) (t r c : String)
    (O : Nat → List OutlineSection) (V : Nat → OutlineCriteria) (i rem : Nat)
    (hO : port.outlineResp i = .ok (O i)) (hV : port.valResp i = .ok (V i))
    (hrej : (V i).meets_requirements = false) (hne : i + 1 ≠ a.max_retries) :
    loopRun a port t r c i (oState O i) (vState V i) (rem + 1) =
      ((loopRun a port t r c (i + 1) (oState O (i + 1)) (vState V (i + 1)) rem).1,
        cycleEvents O V t r c i
          ++ (loopRun a port t r c (i + 1) (oState O (i + 1)) (vState V (i + 1)) rem).2) := by
  cases i <;>
    simp [loopRun, hO, hV, hrej, hne, cycleEvents, oState, vState, fbAt, feedbackOf]

/-- One draft/validate cycle whose verdict accepts: the loop breaks into
step 3 with the just-drafted outline and its verdict. -/
theorem loopRun_step_accept (a : DocumentWorkflowAgent) (port : Port) (t r c : String)
    (O : Nat → List OutlineSection) (V : Nat → OutlineCriteria) (k : Nat)
    (hk : k < a.max_retries)
    (hO : port.outlineResp k = .ok (O k)) (hV : port.valResp k = .ok (V k))
    (hacc : (V k).meets_requirements = true) :
    loopRun a port t r c k (oState O k) (vState V k) (a.max_retries - k) =
      ((step3 port (some (O k)) (some (V k))).1,
        cycleEvents O V t r c k ++ [.notice "\nOutline meets all requirements!"]
          ++ (step3 port (some (O k)) (some (V k))).2) := by
  have hrem : a.max_retries - k = (a.max_retries - k - 1) + 1 := by omega
  rw [hrem]
  cases k <;> simp [loopRun, hO, hV, hacc, cycleEvents, oState, vState, fbAt, feedbackOf]

/-- One draft/validate cycle whose verdict rejects on the last permitted
attempt: the loop returns the failure text. -/
theorem loopRun_step_lastfail (a : DocumentWorkflowAgent) (port : Port) (t r c : String)
    (O : Nat → List OutlineSection) (V : Nat → OutlineCriteria) (k : Nat)
    (hk : k + 1 = a.max_retries)
    (hO : port.outlineResp k = .ok (O k)) (hV : port.valResp k = .ok (V k))
    (hrej : (V k).meets_requirements = false) :
    loopRun a port t r c k (oState O k) (vState V k) (a.max_retries - k) =
      (.ok (failureText (V k)),
        cycleEvents O V t r c k ++ [.notice (exhaustNoticeStr a.max_retries)]) := by
  have hrem : a.max_retries - k = 1 := by omega
  rw [hrem]
  cases k <;> simp [loopRun, hO, hV, hrej, hk, cycleEvents, oState, vState, fbAt, feedbackOf]

/-- The draft call of the current attempt raises: the loop stops there. -/
theorem loopRun_step_drafterr (a : DocumentWorkflowAgent) (port : Port) (t r c : String)
    (V : Nat → OutlineCriteria) (k rem : Nat) (e : GenError)
    (ost : Option (List OutlineSection)) (hO : port.outlineResp k = .error e) :
    loopRun a port t r c k ost (vState V k) (rem + 1) =
      (.error e, [.notice (attemptNoticeStr k), .draftCall t r (fbAt V k)]) := by
  cases k <;> simp [loopRun, hO, vState, fbAt, feedbackOf]

/-- The validation call of the current attempt raises: the loop stops there. -/
theorem loopRun_step_valerr (a : DocumentWorkflowAgent) (port : Port) (t r c : String)
    (O : Nat → List OutlineSection) (V : Nat → OutlineCriteria) (k rem : Nat) (e : GenError)
    (ost : Option (List OutlineSection))
    (hO : port.outlineResp k = .ok (O k)) (hV : port.valResp k = .error e) :
    loopRun a port t r c k ost (vState V k) (rem + 1) =
      (.error e, [.notice (attemptNoticeStr k), .draftCall t r (fbAt V k),
        .notice (createdNoticeStr k (O k)), .notice "Validating outline...",
        .validateCall (O k) c]) := by
  cases k <;> simp [loopRun, hO, hV, vState, fbAt, feedbackOf]

/-- Advancing the loop across attempts `[i, k)` that all draft, validate and
reject (with budget left): the trace accumulates one cycle per attempt and
control reaches attempt `k` with the matching loop state. -/
theorem loopRun_advance (a : DocumentWorkflowAgent) (port : Port) (t r c : String)
    (O : Nat → List OutlineSection) (V : Nat → OutlineCriteria) (k : Nat)
    (hk : k < a.max_retries) :
    ∀ rem i, i + rem = a.max_retries → i ≤ k →
      (∀ j, i ≤ j → j < k →
        port.outlineResp j = .ok (O j) ∧ port.valResp j = .ok (V j) ∧
          (V j).meets_requirements = false) →
      loopRun a port t r c i (oState O i) (vState V i) rem =
        ((loopRun a port t r c k (oState O k) (vState V k) (a.max_retries - k)).1,
          (List.range' i (k - i)).flatMap (cycleEvents O V t r c)
            ++ (loopRun a port t r c k (oState O k) (vState V k) (a.max_retries - k)).2) := by
  intro rem
  induction rem with
  | zero => intro i hi hik _; omega
  | succ rem ih =>
      intro i hi hik hresp
      rcases eq_or_lt_of_le hik with rfl | hlt
      · have hrem : a.max_retries - i = rem + 1 := by omega
        rw [hrem]
        simp
      · obtain ⟨hO, hV, hrej⟩ := hresp i le_rfl hlt
        have hne : i + 1 ≠ a.max_retries := by omega
        rw [loopRun_step_continue a port t r c O V i rem hO hV hrej hne,
          ih (i + 1) (by omega) (by omega) (fun j hj1 hj2 => hresp j (by omega) hj2)]
        have hki : k - i = (k - (i + 1)) + 1 := by omega
        rw [hki, List.range'_succ i (k - (i + 1)) 1, List.flatMap_cons]
        simp [List.append_assoc]

theorem draftArgs_cycles (O : Nat → List OutlineSection) (V : Nat → OutlineCriteria)
    (t r c : String) : ∀ n s,
    draftArgs ((List.range' s n).flatMap (cycleEvents O V t r c)) =
      (List.range' s n).map (fun i => (t, r, fbAt V i)) := by
  intro n
  induction n with
  | zero => intro s; rfl
  | succ n ih =>
      intro s
      rw [List.range'_succ s n 1, List.flatMap_cons, List.map_cons, draftArgs_append,
        draftArgs_cycle, ih]
      rfl

/-! ## Whole-run lemmas -/

/-- The accept path end to end: attempts `0..k-1` draft/validate and reject,
attempt `k` accepts, the document call returns `D`. -/
theorem run_accept (a : DocumentWorkflowAgent) (port : Port) (t r c : String)
    (O : Nat → List OutlineSection) (V : Nat → OutlineCriteria) (D : DocumentContent)
    (k : Nat) (hk : k < a.max_retries)
    (hresp : ∀ j, j ≤ k → port.outlineResp j = .ok (O j) ∧ port.valResp j = .ok (V j))
    (hrej : ∀ j, j < k → (V j).meets_requirements = false)
    (hacc : (V k).meets_requirements = true)
    (hD : port.docResp = .ok D) :
    run a port t r c =
      (.ok D.content,
        (List.range (k + 1)).flatMap (cycleEvents O V t r c)
          ++ [.notice "\nOutline meets all requirements!",
              .notice "\nGenerating final document...",
              .docCall (some (O k)) (some (V k))]) := by
  have hadv : loopRun a port t r c 0 none none a.max_retries =
      ((loopRun a port t r c k (oState O k) (vState V k) (a.max_retries - k)).1,
        (List.range' 0 (k - 0)).flatMap (cycleEvents O V t r c)
          ++ (loopRun a port t r c k (oState O k) (vState V k) (a.max_retries - k)).2) :=
    loopRun_advance a port t r c O V k hk a.max_retries 0 (by omega) (by omega)
      (fun j _ hj2 => ⟨(hresp j (by omega)).1, (hresp j (by omega)).2, hrej j hj2⟩)
  rw [loopRun_step_accept a port t r c O V k hk (hresp k le_rfl).1 (hresp k le_rfl).2 hacc,
    step3_ok port (some (O k)) (some (V k)) D hD] at hadv
  simp only [run, hadv]
  rw [List.range_succ, List.flatMap_append, List.range_eq_range']
  simp [List.append_assoc]

/-- The exhaustion path end to end: every attempt within the budget rejects. -/
theorem run_exhaust (a : DocumentWorkflowAgent) (port : Port) (t r c : String)
    (O : Nat → List OutlineSection) (V : Nat → OutlineCriteria)
    (hpos : 0 < a.max_retries)
    (hresp : ∀ j, j < a.max_retries →
      port.outlineResp j = .ok (O j) ∧ port.valResp j = .ok (V j))
    (hrej : ∀ j, j < a.max_retries → (V j).meets_requirements = false) :
    run a port t r c =
      (.ok (failureText (V (a.max_retries - 1))),
        (List.range a.max_retries).flatMap (cycleEvents O V t r c)
          ++ [.notice (exhaustNoticeStr a.max_retries)]) := by
  have hk : a.max_retries - 1 < a.max_retries := by omega
  have hadv : loopRun a port t r c 0 none none a.max_retries =
      ((loopRun a port t r c (a.max_retries - 1) (oState O (a.max_retries - 1))
          (vState V (a.max_retries - 1)) (a.max_retries - (a.max_retries - 1))).1,
        (List.range' 0 (a.max_retries - 1 - 0)).flatMap (cycleEvents O V t r c)
          ++ (loopRun a port t r c (a.max_retries - 1) (oState O (a.max_retries - 1))
              (vState V (a.max_retries - 1)) (a.max_retries - (a.max_retries - 1))).2) :=
    loopRun_advance a port t r c O V (a.max_retries - 1) hk a.max_retries 0
      (by omega) (by omega)
      (fun j _ hj2 => ⟨(hresp j (by omega)).1, (hresp j (by omega)).2, hrej j (by omega)⟩)
  rw [loopRun_step_lastfail a port t r c O V (a.max_retries - 1) (by omega)
    (hresp _ hk).1 (hresp _ hk).2 (hrej _ hk)] at hadv
  simp only [run, hadv]
  have hsplit : List.range a.max_retries =
      List.range' 0 (a.max_retries - 1) ++ [a.max_retries - 1] := by
    rw [← List.range_eq_range']
    have : a.max_retries = (a.max_retries - 1) + 1 := by omega
    rw [this, List.range_succ]
    simp
  rw [hsplit, List.flatMap_append]
  simp [List.append_assoc]

/-! ## Generic one-iteration unfoldings (arbitrary loop state) -/

theorem loopRun_unfold_drafterr (a : DocumentWorkflowAgent) (port : Port) (t r c : String)
    (i rem : Nat) (ost : Option (List OutlineSection)) (vst : Option OutlineCriteria)
    (e : GenError) (hO : port.outlineResp i = .error e) :
    loopRun a port t r c i ost vst (rem + 1) =
      (.error e, [.notice (attemptNoticeStr i), .draftCall t r (feedbackOf vst)]) := by
  simp [loopRun, hO]

theorem loopRun_unfold_valerr (a : DocumentWorkflowAgent) (port : Port) (t r c : String)
    (i rem : Nat) (ost : Option (List OutlineSection)) (vst : Option OutlineCriteria)
    (ol0 : List OutlineSection) (e : GenError)
    (hO : port.outlineResp i = .ok ol0) (hV : port.valResp i = .error e) :
    loopRun a port t r c i ost vst (rem + 1) =
      (.error e, [.notice (attemptNoticeStr i), .draftCall t r (feedbackOf vst),
        .notice (createdNoticeStr i ol0), .notice "Validating outline...",
        .validateCall ol0 c]) := by
  simp [loopRun, hO, hV]

theorem loopRun_unfold_accept (a : DocumentWorkflowAgent) (port : Port) (t r c : String)
    (i rem : Nat) (ost : Option (List OutlineSection)) (vst : Option OutlineCriteria)
    (ol0 : List OutlineSection) (v0 : OutlineCriteria)
    (hO : port.outlineResp i = .ok ol0) (hV : port.valResp i = .ok v0)
    (hacc : v0.meets_requirements = true) :
    loopRun a port t r c i ost vst (rem + 1) =
      ((step3 port (some ol0) (some v0)).1,
        [.notice (attemptNoticeStr i), .draftCall t r (feedbackOf vst),
          .notice (createdNoticeStr i ol0), .notice "Validating outline...",
          .validateCall ol0 c, .notice (validationNoticeStr v0),
          .notice "\nOutline meets all requirements!"]
          ++ (step3 port (some ol0) (some v0)).2) := by
  simp [loopRun, hO, hV, hacc]

theorem loopRun_unfold_lastfail (a : DocumentWorkflowAgent) (port : Port) (t r c : String)
    (i rem : Nat) (ost : Option (List OutlineSection)) (vst : Option OutlineCriteria)
    (ol0 : List OutlineSection) (v0 : OutlineCriteria)
    (hO : port.outlineResp i = .ok ol0) (hV : port.valResp i = .ok v0)
    (hrej : v0.meets_requirements = false) (hend : i + 1 = a.max_retries) :
    loopRun a port t r c i ost vst (rem + 1) =
      (.ok (failureText v0),
        [.notice (attemptNoticeStr i), .draftCall t r (feedbackOf vst),
          .notice (createdNoticeStr i ol0), .notice "Validating outline...",
          .validateCall ol0 c, .notice (validationNoticeStr v0),
          .notice (exhaustNoticeStr a.max_retries)]) := by
  simp [loopRun, hO, hV, hrej, hend]

theorem loopRun_unfold_continue (a : DocumentWorkflowAgent) (port : Port) (t r c : String)
    (i rem : Nat) (ost : Option (List OutlineSection)) (vst : Option OutlineCriteria)
    (ol0 : List OutlineSection) (v0 : OutlineCriteria)
    (hO : port.outlineResp i = .ok ol0) (hV : port.valResp i = .ok v0)
    (hrej : v0.meets_requirements = false) (hne : i + 1 ≠ a.max_retries) :
    loopRun a port t r c i ost vst (rem + 1) =
      ((loopRun a port t r c (i + 1) (some ol0) (some v0) rem).1,
        [.notice (attemptNoticeStr i), .draftCall t r (feedbackOf vst),
          .notice (createdNoticeStr i ol0), .notice "Validating outline...",
          .validateCall ol0 c, .notice (validationNoticeStr v0)]
          ++ (loopRun a port t r c (i + 1) (some ol0) (some v0) rem).2) := by
  simp [loopRun, hO, hV, hrej, hne]

/-! ## General invariants over arbitrary port responses -/

/-- Entered anywhere within the budget, the loop makes at most one
document-generation call, and any such call carries `some` outline and `some`
accepting verdict that the port actually produced at an attempt within the
budget. -/
theorem loopRun_doc_invariant (a : DocumentWorkflowAgent) (port : Port) (t r c : String) :
    ∀ rem i ost vst, i + rem = a.max_retries → i < a.max_retries →
      docCount (loopRun a port t r c i ost vst rem).2 ≤ 1 ∧
      (∀ o v, Event.docCall o v ∈ (loopRun a port t r c i ost vst rem).2 →
        ∃ ol ve j, o = some ol ∧ v = some ve ∧ ve.meets_requirements = true ∧
          i ≤ j ∧ j < a.max_retries ∧ port.outlineResp j = .ok ol ∧
          port.valResp j = .ok ve) := by
  intro rem
  induction rem with
  | zero => intro i ost vst hi hlt; omega
  | succ rem ih =>
      intro i ost vst hi hlt
      cases hO : port.outlineResp i with
      | error e =>
          rw [loopRun_unfold_drafterr a port t r c i rem ost vst e hO]
          constructor
          · simp [docCount, List.countP_cons, Event.isDoc]
          · intro o v hmem
            simp at hmem
      | ok ol0 =>
          cases hV : port.valResp i with
          | error e =>
              rw [loopRun_unfold_valerr a port t r c i rem ost vst ol0 e hO hV]
              constructor
              · simp [docCount, List.countP_cons, Event.isDoc]
              · intro o v hmem
                simp at hmem
          | ok v0 =>
              by_cases hacc : v0.meets_requirements = true
              · rw [loopRun_unfold_accept a port t r c i rem ost vst ol0 v0 hO hV hacc]
                constructor
                · simp [docCount, List.countP_append, List.countP_cons, Event.isDoc,
                    step3_trace]
                · intro o v hmem
                  simp [step3_trace] at hmem
                  obtain ⟨rfl, rfl⟩ := hmem
                  exact ⟨ol0, v0, i, rfl, rfl, hacc, le_rfl, hlt, hO, hV⟩
              · have hrej : v0.meets_requirements = false := by
                  cases h0 : v0.meets_requirements
                  · rfl
                  · exact absurd h0 hacc
                by_cases hend : i + 1 = a.max_retries
                · rw [loopRun_unfold_lastfail a port t r c i rem ost vst ol0 v0 hO hV
                    hrej hend]
                  constructor
                  · simp [docCount, List.countP_cons, Event.isDoc]
                  · intro o v hmem
                    simp at hmem
                · obtain ⟨hcnt, hchar⟩ := ih (i + 1) (some ol0) (some v0) (by omega) (by omega)
                  rw [loopRun_unfold_continue a port t r c i rem ost vst ol0 v0 hO hV
                    hrej hend]
                  constructor
                  · rw [show docCount
                        ([.notice (attemptNoticeStr i), .draftCall t r (feedbackOf vst),
                          .notice (createdNoticeStr i ol0), .notice "Validating outline...",
                          .validateCall ol0 c, .notice (validationNoticeStr v0)]
                          ++ (loopRun a port t r c (i + 1) (some ol0) (some v0) rem).2) =
                        docCount [Event.notice (attemptNoticeStr i),
                          .draftCall t r (feedbackOf vst), .notice (createdNoticeStr i ol0),
                          .notice "Validating outline...", .validateCall ol0 c,
                          .notice (validationNoticeStr v0)]
                          + docCount (loopRun a port t r c (i + 1) (some ol0) (some v0) rem).2
                      from docCount_append _ _]
                    have hz : docCount [Event.notice (attemptNoticeStr i),
                        .draftCall t r (feedbackOf vst), .notice (createdNoticeStr i ol0),
                        .notice "Validating outline...", .validateCall ol0 c,
                        .notice (validationNoticeStr v0)] = 0 := by
                      simp [docCount, List.countP_cons, Event.isDoc]
                    omega
                  · intro o v hmem
                    rw [List.mem_append] at hmem
                    rcases hmem with hmem | hmem
                    · simp at hmem
                    · obtain ⟨ol, ve, j, h1, h2, h3, h4, h5, h6, h7⟩ := hchar o v hmem
                      exact ⟨ol, ve, j, h1, h2, h3, by omega, h5, h6, h7⟩

/-- Entered anywhere, the `j`-th validation call of the loop's trace (0-based,
counted from entry) validates exactly the outline the port returned for the
`(i+j)`-th draft call, against the caller's `criteria`. -/
theorem loopRun_validate_invariant (a : DocumentWorkflowAgent) (port : Port) (t r c : String) :
    ∀ rem i ost vst j o cr,
      (validateArgs (loopRun a port t r c i ost vst rem).2).get? j = some (o, cr) →
      port.outlineResp (i + j) = .ok o ∧ cr = c := by
  intro rem
  induction rem with
  | zero =>
      intro i ost vst j o cr hj
      simp only [loopRun] at hj
      rw [step3_trace] at hj
      simp [validateArgs] at hj
  | succ rem ih =>
      intro i ost vst j o cr hj
      cases hO : port.outlineResp i with
      | error e =>
          rw [loopRun_unfold_drafterr a port t r c i rem ost vst e hO] at hj
          simp [validateArgs] at hj
      | ok ol0 =>
          cases hV : port.valResp i with
          | error e =>
              rw [loopRun_unfold_valerr a port t r c i rem ost vst ol0 e hO hV] at hj
              cases j with
              | zero =>
                  simp [validateArgs] at hj
                  exact ⟨hj.1 ▸ hO, hj.2.symm⟩
              | succ j' => simp [validateArgs] at hj
          | ok v0 =>
              by_cases hacc : v0.meets_requirements = true
              · rw [loopRun_unfold_accept a port t r c i rem ost vst ol0 v0 hO hV hacc,
                  validateArgs_append, step3_trace] at hj
                cases j with
                | zero =>
                    simp [validateArgs] at hj
                    exact ⟨hj.1 ▸ hO, hj.2.symm⟩
                | succ j' => simp [validateArgs] at hj
              · have hrej : v0.meets_requirements = false := by
                  cases h0 : v0.meets_requirements
                  · rfl
                  · exact absurd h0 hacc
                by_cases hend : i + 1 = a.max_retries
                · rw [loopRun_unfold_lastfail a port t r c i rem ost vst ol0 v0 hO hV
                    hrej hend] at hj
                  cases j with
                  | zero =>
                      simp [validateArgs] at hj
                      exact ⟨hj.1 ▸ hO, hj.2.symm⟩
                  | succ j' => simp [validateArgs] at hj
                · rw [loopRun_unfold_continue a port t r c i rem ost vst ol0 v0 hO hV
                    hrej hend, validateArgs_append] at hj
                  cases j with
                  | zero =>
                      simp [validateArgs] at hj
                      exact ⟨hj.1 ▸ hO, hj.2.symm⟩
                  | succ j' =>
                      simp only [validateArgs, List.cons_append, List.nil_append,
                        List.get?_cons_succ] at hj
                      have := ih (i + 1) (some ol0) (some v0) j' o cr hj
                      exact ⟨by rw [show i + (j' + 1) = i + 1 + j' from by omega]; exact this.1,
                        this.2⟩

/-- `run` returns the loop's trace, with one extra diagnostic notice appended
exactly when the result is an error. -/
theorem run_trace_eq (a : DocumentWorkflowAgent) (port : Port) (t r c : String) :
    (run a port t r c).2 = (loopRun a port t r c 0 none none a.max_retries).2 ∨
    ∃ e, (run a port t r c).1 = .error e ∧
      (run a port t r c).2 =
        (loopRun a port t r c 0 none none a.max_retries).2
          ++ [.notice ("Error in workflow: " ++ e.message)] := by
  unfold run
  cases h : (loopRun a port t r c 0 none none a.max_retries).1 with
  | error e => exact Or.inr ⟨e, by simp [h], by simp [h]⟩
  | ok s => exact Or.inl (by simp [h])

theorem draftArgs_run (a : DocumentWorkflowAgent) (port : Port) (t r c : String) :
    draftArgs (run a port t r c).2 =
      draftArgs (loopRun a port t r c 0 none none a.max_retries).2 := by
  rcases run_trace_eq a port t r c with h | ⟨e, _, h⟩ <;>
    simp [h, draftArgs_append, draftArgs]

theorem validateArgs_run (a : DocumentWorkflowAgent) (port : Port) (t r c : String) :
    validateArgs (run a port t r c).2 =
      validateArgs (loopRun a port t r c 0 none none a.max_retries).2 := by
  rcases run_trace_eq a port t r c with h | ⟨e, _, h⟩ <;>
    simp [h, validateArgs_append, validateArgs]

theorem docCount_run (a : DocumentWorkflowAgent) (port : Port) (t r c : String) :
    docCount (run a port t r c).2 =
      docCount (loopRun a port t r c 0 none none a.max_retries).2 := by
  rcases run_trace_eq a port t r c with h | ⟨e, _, h⟩ <;>
    simp [h, docCount_append, docCount, List.countP_cons, Event.isDoc]

theorem docCall_mem_run (a : DocumentWorkflowAgent) (port : Port) (t r c : String)
    (o : Option (List OutlineSection)) (v : Option OutlineCriteria)
    (h : Event.docCall o v ∈ (run a port t r c).2) :
    Event.docCall o v ∈ (loopRun a port t r c 0 none none a.max_retries).2 := by
  rcases run_trace_eq a port t r c with heq | ⟨e, _, heq⟩ <;> rw [heq] at h
  · exact h
  · rcases List.mem_append.mp h with h' | h'
    · exact h'
    · simp at h'

/-- Attempts `0..i-1` reject (with budget left at `i`): the `i`-th draft call
of the whole run receives `topic`, `requirements` and the feedback text
derived from attempt `i-1`'s verdict (empty at `i = 0`), whatever the port
does from attempt `i` on. -/
theorem run_draftArgs (a : DocumentWorkflowAgent) (port : Port) (t r c : String)
    (O : Nat → List OutlineSection) (V : Nat → OutlineCriteria) (i : Nat)
    (hi : i < a.max_retries)
    (hresp : ∀ j, j < i →
      port.outlineResp j = .ok (O j) ∧ port.valResp j = .ok (V j) ∧
        (V j).meets_requirements = false) :
    (draftArgs (run a port t r c).2).get? i = some (t, r, fbAt V i) := by
  have hadv : loopRun a port t r c 0 none none a.max_retries =
      ((loopRun a port t r c i (oState O i) (vState V i) (a.max_retries - i)).1,
        (List.range' 0 (i - 0)).flatMap (cycleEvents O V t r c)
          ++ (loopRun a port t r c i (oState O i) (vState V i) (a.max_retries - i)).2) :=
    loopRun_advance a port t r c O V i hi a.max_retries 0 (by omega) (by omega)
      (fun j _ hj2 => hresp j hj2)
  have hadv2 : (loopRun a port t r c 0 none none a.max_retries).2 =
      (List.range' 0 (i - 0)).flatMap (cycleEvents O V t r c)
        ++ (loopRun a port t r c i (oState O i) (vState V i) (a.max_retries - i)).2 := by
    rw [hadv]
  obtain ⟨r', hr'⟩ : ∃ r', a.max_retries - i = r' + 1 := ⟨a.max_retries - i - 1, by omega⟩
  have htail : ∃ l, draftArgs (loopRun a port t r c i (oState O i) (vState V i)
      (a.max_retries - i)).2 = (t, r, fbAt V i) :: l := by
    rw [hr']
    cases hO : port.outlineResp i with
    | error e =>
        rw [loopRun_unfold_drafterr a port t r c i r' (oState O i) (vState V i) e hO,
          feedbackOf_vState]
        exact ⟨[], rfl⟩
    | ok ol0 =>
        cases hV : port.valResp i with
        | error e =>
            rw [loopRun_unfold_valerr a port t r c i r' (oState O i) (vState V i) ol0 e hO hV,
              feedbackOf_vState]
            exact ⟨[], rfl⟩
        | ok v0 =>
            by_cases hacc : v0.meets_requirements = true
            · rw [loopRun_unfold_accept a port t r c i r' (oState O i) (vState V i) ol0 v0
                hO hV hacc, feedbackOf_vState]
              refine ⟨[], ?_⟩
              show draftArgs (_ ++ _) = _
              rw [draftArgs_append, step3_trace]
              rfl
            · have hrej : v0.meets_requirements = false := by
                cases h0 : v0.meets_requirements
                · rfl
                · exact absurd h0 hacc
              by_cases hend : i + 1 = a.max_retries
              · rw [loopRun_unfold_lastfail a port t r c i r' (oState O i) (vState V i)
                  ol0 v0 hO hV hrej hend, feedbackOf_vState]
                exact ⟨[], rfl⟩
              · rw [loopRun_unfold_continue a port t r c i r' (oState O i) (vState V i)
                  ol0 v0 hO hV hrej hend, feedbackOf_vState]
                refine ⟨draftArgs (loopRun a port t r c (i + 1) (some ol0) (some v0) r').2, ?_⟩
                show draftArgs (_ ++ _) = _
                rw [draftArgs_append]
                rfl
  obtain ⟨l, hl⟩ := htail
  rw [draftArgs_run, hadv2, draftArgs_append, draftArgs_cycles, hl]
  simp only [Nat.sub_zero]
  rw [List.get?_append_right (by simp)]
  simp

theorem substrOf_suggestionLines {s : String} : ∀ {ss : List String}, s ∈ ss →
    SubstrOf s (suggestionLines ss)
  | [], h => absurd h (List.not_mem_nil s)
  | x :: rest, h => by
      rcases List.mem_cons.mp h with rfl | hmem
      · exact ⟨"- ", suggestionLines rest, rfl⟩
      · exact (substrOf_suggestionLines hmem).append_left ("- " ++ x)

theorem run_of_loop_error (a : DocumentWorkflowAgent) (port : Port) (t r c : String)
    (e : GenError) (evs : List Event)
    (h : loopRun a port t r c 0 none none a.max_retries = (.error e, evs)) :
    run a port t r c =
      (.error e, evs ++ [.notice ("Error in workflow: " ++ e.message)]) := by
  unfold run
  rw [h]

theorem run_of_loop_ok (a : DocumentWorkflowAgent) (port : Port) (t r c : String)
    (s : String) (evs : List Event)
    (h : loopRun a port t r c 0 none none a.max_retries = (.ok s, evs)) :
    run a port t r c = (.ok s, evs) := by
  unfold run
  rw [h]

/-! ## The claims -/

/-- C10: `run` is deterministic in the Generation Port — for any fixed
sequence of port responses (two ports answering identically call by call),
two invocations with the same topic, requirements, criteria and
`max_retries` produce the same result and the same sequence of calls and
notices. -/
theorem claim10_deterministic (a : DocumentWorkflowAgent) (p₁ p₂ : Port) (t r c : String)
    (hO : ∀ i, p₁.outlineResp i = p₂.outlineResp i)
    (hV : ∀ i, p₁.valResp i = p₂.valResp i)
    (hD : p₁.docResp = p₂.docResp) :
    run a p₁ t r c = run a p₂ t r c := by
  obtain ⟨o₁, v₁, d₁⟩ := p₁
  obtain ⟨o₂, v₂, d₂⟩ := p₂
  simp only at hO hV hD
  have ho : o₁ = o₂ := funext hO
  have hv : v₁ = v₂ := funext hV
  subst ho
  subst hv
  subst hD
  rfl

theorem claim10_witness :
    run ⟨[], 2⟩ (okPort wO wV wD) "T" "R" "C" =
      run ⟨[], 2⟩ (Port.mk (fun i => .ok (wO i)) (fun i => .ok (wV i)) (.ok wD))
        "T" "R" "C" :=
  claim10_deterministic ⟨[], 2⟩ (okPort wO wV wD)
    (Port.mk (fun i => .ok (wO i)) (fun i => .ok (wV i)) (.ok wD))
    "T" "R" "C" (fun _ => rfl) (fun _ => rfl) rfl

/-- C9: with `max_retries = 0` the while loop never runs: `run` makes no
draft call and no validation call, directly invokes document generation with
outline `None` and validation `None`, and returns that document's content. -/
theorem claim9_zero_retries_generates_directly (a : DocumentWorkflowAgent) (port : Port)
    (t r c : String) (D : DocumentContent)
    (hmax : a.max_retries = 0) (hD : port.docResp = .ok D) :
    run a port t r c =
      (.ok D.content, [.notice "\nGenerating final document...", .docCall none none]) ∧
    draftCount (run a port t r c).2 = 0 ∧
    validateCount (run a port t r c).2 = 0 ∧
    docCount (run a port t r c).2 = 1 := by
  have h1 : run a port t r c =
      (.ok D.content, [.notice "\nGenerating final document...", .docCall none none]) := by
    apply run_of_loop_ok
    rw [hmax]
    simp only [loopRun]
    exact step3_ok port none none D hD
  refine ⟨h1, ?_, ?_, ?_⟩ <;>
    rw [h1] <;>
    simp [draftCount, validateCount, docCount, List.countP_cons, Event.isDraft,
      Event.isValidate, Event.isDoc]

theorem claim9_witness :
    run ⟨[], 0⟩ (okPort wO wV wD) "T" "R" "C" =
      (.ok wD.content, [.notice "\nGenerating final document...", .docCall none none]) ∧
    draftCount (run ⟨[], 0⟩ (okPort wO wV wD) "T" "R" "C").2 = 0 ∧
    validateCount (run ⟨[], 0⟩ (okPort wO wV wD) "T" "R" "C").2 = 0 ∧
    docCount (run ⟨[], 0⟩ (okPort wO wV wD) "T" "R" "C").2 = 1 :=
  claim9_zero_retries_generates_directly ⟨[], 0⟩ (okPort wO wV wD) "T" "R" "C" wD rfl rfl

/-- C8: the `j`-th validation call of any run validates exactly the outline
value the port returned for the `j`-th draft call (a fresh draft wholly
replaces any prior outline — the validated outline is never a merge), against
the caller's `criteria`. -/
theorem claim8_validation_uses_current_draft (a : DocumentWorkflowAgent) (port : Port)
    (t r c : String) (j : Nat) (o : List OutlineSection) (cr : String)
    (h : (validateArgs (run a port t r c).2).get? j = some (o, cr)) :
    port.outlineResp j = .ok o ∧ cr = c := by
  rw [validateArgs_run] at h
  have := loopRun_validate_invariant a port t r c a.max_retries 0 none none j o cr h
  simpa using this

theorem claim8_witness :
    (okPort wO wV wD).outlineResp 1 = .ok (wO 1) ∧ "C" = "C" :=
  claim8_validation_uses_current_draft ⟨[], 3⟩ (okPort wO wV wD) "T" "R" "C" 1 (wO 1) "C" rfl

/-- C3: under the spec's precondition `max_retries ≥ 1`, every run makes at
most one document-generation call; any such call carries `some` outline and
`some` verdict with `meets_requirements = true` that the port actually
produced within the budget (the accept path); and if every verdict produced
within the budget rejects, no document-generation call occurs at all. -/
theorem claim3_doc_only_after_accept (a : DocumentWorkflowAgent) (port : Port)
    (t r c : String) (hpos : 0 < a.max_retries) :
    docCount (run a port t r c).2 ≤ 1 ∧
    (∀ o v, Event.docCall o v ∈ (run a port t r c).2 →
      ∃ ol ve j, o = some ol ∧ v = some ve ∧ ve.meets_requirements = true ∧
        j < a.max_retries ∧ port.outlineResp j = .ok ol ∧ port.valResp j = .ok ve) ∧
    ((∀ j, j < a.max_retries → ∀ ve, port.valResp j = .ok ve →
        ve.meets_requirements = false) →
      ∀ o v, Event.docCall o v ∉ (run a port t r c).2) := by
  obtain ⟨hcnt, hchar⟩ :=
    loopRun_doc_invariant a port t r c a.max_retries 0 none none (by omega) hpos
  refine ⟨?_, ?_, ?_⟩
  · rw [docCount_run]
    exact hcnt
  · intro o v h
    obtain ⟨ol, ve, j, h1, h2, h3, _, h5, h6, h7⟩ := hchar o v (docCall_mem_run a port t r c o v h)
    exact ⟨ol, ve, j, h1, h2, h3, h5, h6, h7⟩
  · intro hall o v hmem
    obtain ⟨ol, ve, j, _, _, h3, _, h5, _, h7⟩ := hchar o v (docCall_mem_run a port t r c o v hmem)
    have := hall j h5 ve h7
    rw [this] at h3
    exact Bool.false_ne_true h3

theorem claim3_witness :
    docCount (run ⟨[], 2⟩ (okPort wO wV wD) "T" "R" "C").2 ≤ 1 ∧
    (∀ o v, Event.docCall o v ∈ (run ⟨[], 2⟩ (okPort wO wV wD) "T" "R" "C").2 →
      ∃ ol ve j, o = some ol ∧ v = some ve ∧ ve.meets_requirements = true ∧
        j < (2 : Nat) ∧ (okPort wO wV wD).outlineResp j = .ok ol ∧
        (okPort wO wV wD).valResp j = .ok ve) ∧
    ((∀ j, j < (2 : Nat) → ∀ ve, (okPort wO wV wD).valResp j = .ok ve →
        ve.meets_requirements = false) →
      ∀ o v, Event.docCall o v ∉ (run ⟨[], 2⟩ (okPort wO wV wD) "T" "R" "C").2) :=
  claim3_doc_only_after_accept ⟨[], 2⟩ (okPort wO wV wD) "T" "R" "C" (by decide)

/-- C1: if attempts `0..k-1` reject and attempt `k < max_retries` accepts,
`run` terminates after exactly `k+1` draft/validate cycles and exactly one
document-generation call, returning that document's content (the hypothesis
`k < max_retries` includes `k = max_retries - 1`: acceptance on the last
permitted attempt still proceeds to document generation, as the witness
instantiates). -/
theorem claim1_acceptance_termination (a : DocumentWorkflowAgent)
    (O : Nat → List OutlineSection) (V : Nat → OutlineCriteria) (D : DocumentContent)
    (t r c : String) (k : Nat) (hk : k < a.max_retries)
    (hrej : ∀ j, j < k → (V j).meets_requirements = false)
    (hacc : (V k).meets_requirements = true) :
    run a (okPort O V D) t r c =
      (.ok D.content,
        (List.range (k + 1)).flatMap (cycleEvents O V t r c)
          ++ [.notice "\nOutline meets all requirements!",
              .notice "\nGenerating final document...",
              .docCall (some (O k)) (some (V k))]) ∧
    draftCount (run a (okPort O V D) t r c).2 = k + 1 ∧
    validateCount (run a (okPort O V D) t r c).2 = k + 1 ∧
    docCount (run a (okPort O V D) t r c).2 = 1 := by
  have hmain := run_accept a (okPort O V D) t r c O V D k hk
    (fun j _ => ⟨rfl, rfl⟩) hrej hacc rfl
  have h2 : (run a (okPort O V D) t r c).2 =
      (List.range (k + 1)).flatMap (cycleEvents O V t r c)
        ++ [.notice "\nOutline meets all requirements!",
            .notice "\nGenerating final document...",
            .docCall (some (O k)) (some (V k))] := by rw [hmain]
  refine ⟨hmain, ?_, ?_, ?_⟩
  · rw [h2, List.range_eq_range', draftCount_append, draftCount_cycles]
    simp [draftCount, List.countP_cons, Event.isDraft]
  · rw [h2, List.range_eq_range', validateCount_append, validateCount_cycles]
    simp [validateCount, List.countP_cons, Event.isValidate]
  · rw [h2, List.range_eq_range', docCount_append, docCount_cycles]
    simp [docCount, List.countP_cons, Event.isDoc]

theorem claim1_witness :
    run ⟨[], 2⟩ (okPort wO wV wD) "T" "R" "C" =
      (.ok wD.content,
        (List.range 2).flatMap (cycleEvents wO wV "T" "R" "C")
          ++ [.notice "\nOutline meets all requirements!",
              .notice "\nGenerating final document...",
              .docCall (some (wO 1)) (some (wV 1))]) ∧
    draftCount (run ⟨[], 2⟩ (okPort wO wV wD) "T" "R" "C").2 = 2 ∧
    validateCount (run ⟨[], 2⟩ (okPort wO wV wD) "T" "R" "C").2 = 2 ∧
    docCount (run ⟨[], 2⟩ (okPort wO wV wD) "T" "R" "C").2 = 1 :=
  claim1_acceptance_termination ⟨[], 2⟩ wO wV wD "T" "R" "C" 1 (by decide)
    (by decide) (by decide)

/-- C2 (amended): if every validation across the `max_retries` attempts
rejects (and the spec's precondition `max_retries ≥ 1` holds), `run` performs
exactly `max_retries` draft/validate cycles, makes zero document-generation
calls, and returns a failure text embedding the final verdict: the Python
`repr` of each element of its `missing_elements` and `suggestions` occurs in
the text, and each element free of quotes, backslashes and control
characters occurs verbatim. (Elements containing such characters appear in
escaped form only — see the counterexample.) -/
theorem claim2_budget_exhaustion (a : DocumentWorkflowAgent)
    (O : Nat → List OutlineSection) (V : Nat → OutlineCriteria) (D : DocumentContent)
    (t r c : String) (hpos : 0 < a.max_retries)
    (hrej : ∀ j, j < a.max_retries → (V j).meets_requirements = false) :
    run a (okPort O V D) t r c =
      (.ok (failureText (V (a.max_retries - 1))),
        (List.range a.max_retries).flatMap (cycleEvents O V t r c)
          ++ [.notice (exhaustNoticeStr a.max_retries)]) ∧
    draftCount (run a (okPort O V D) t r c).2 = a.max_retries ∧
    validateCount (run a (okPort O V D) t r c).2 = a.max_retries ∧
    docCount (run a (okPort O V D) t r c).2 = 0 ∧
    (∀ s, s ∈ (V (a.max_retries - 1)).missing_elements ∨
        s ∈ (V (a.max_retries - 1)).suggestions →
      SubstrOf (pyReprStr s) (failureText (V (a.max_retries - 1))) ∧
      (pyPlain s = true → SubstrOf s (failureText (V (a.max_retries - 1))))) := by
  have hmain := run_exhaust a (okPort O V D) t r c O V hpos
    (fun j _ => ⟨rfl, rfl⟩) hrej
  have h2 : (run a (okPort O V D) t r c).2 =
      (List.range a.max_retries).flatMap (cycleEvents O V t r c)
        ++ [.notice (exhaustNoticeStr a.max_retries)] := by rw [hmain]
  refine ⟨hmain, ?_, ?_, ?_, ?_⟩
  · rw [h2, List.range_eq_range', draftCount_append, draftCount_cycles]
    simp [draftCount, List.countP_cons, Event.isDraft]
  · rw [h2, List.range_eq_range', validateCount_append, validateCount_cycles]
    simp [validateCount, List.countP_cons, Event.isValidate]
  · rw [h2, List.range_eq_range', docCount_append, docCount_cycles]
    simp [docCount, List.countP_cons, Event.isDoc]
  · intro s hs
    have hrepr : SubstrOf (pyReprStr s) (failureText (V (a.max_retries - 1))) := by
      rcases hs with hs | hs
      · exact substrOf_failureText (substrOf_missing_pyCriteriaStr
          (substrOf_within_pyStrList (substrOf_repr_pyStrListInner hs)))
      · exact substrOf_failureText (substrOf_sugg_pyCriteriaStr
          (substrOf_within_pyStrList (substrOf_repr_pyStrListInner hs)))
    exact ⟨hrepr, fun hp => (substrOf_self_of_plain hp).trans hrepr⟩

theorem claim2_witness :
    run ⟨[], 2⟩ (okPort wO wVfail wD) "T" "R" "C" =
      (.ok (failureText (wVfail 1)),
        (List.range 2).flatMap (cycleEvents wO wVfail "T" "R" "C")
          ++ [.notice (exhaustNoticeStr 2)]) ∧
    draftCount (run ⟨[], 2⟩ (okPort wO wVfail wD) "T" "R" "C").2 = 2 ∧
    validateCount (run ⟨[], 2⟩ (okPort wO wVfail wD) "T" "R" "C").2 = 2 ∧
    docCount (run ⟨[], 2⟩ (okPort wO wVfail wD) "T" "R" "C").2 = 0 ∧
    (∀ s, s ∈ (wVfail 1).missing_elements ∨ s ∈ (wVfail 1).suggestions →
      SubstrOf (pyReprStr s) (failureText (wVfail 1)) ∧
      (pyPlain s = true → SubstrOf s (failureText (wVfail 1)))) :=
  claim2_budget_exhaustion ⟨[], 2⟩ wO wVfail wD "T" "R" "C" (by decide) (by decide)

/-- C2 counterexample: in a concrete exhaustion run whose final verdict has
`missing_elements = ["a\nb"]` and `suggestions = ["c\nd"]`, `run` returns
the failure text, but neither raw element is a substring of it: CPython
renders them escaped (`'a\\nb'`, `'c\\nd'`), so the failure text contains
no newline character at all while each element contains one. -/
theorem claim2_counterexample :
    (run ⟨[], 1⟩ (okPort wO wVesc wD) "T" "R" "C").1 =
      .ok (failureText (wVesc 0)) ∧
    (wVesc 0).missing_elements = ["a\nb"] ∧
    (wVesc 0).suggestions = ["c\nd"] ∧
    ¬ SubstrOf "a\nb" (failureText (wVesc 0)) ∧
    ¬ SubstrOf "c\nd" (failureText (wVesc 0)) := by
  refine ⟨rfl, rfl, rfl, ?_, ?_⟩
  · intro h
    exact absurd (h.mem_data (by decide : Char.ofNat 10 ∈ "a\nb".data)) (by decide)
  · intro h
    exact absurd (h.mem_data (by decide : Char.ofNat 10 ∈ "c\nd".data)) (by decide)

/-- C7: on the accept path the document-generation call receives the accepted
outline and the accepting verdict; the verdict influences the
document-generation instructions only through its `suggestions` field (two
verdicts with equal `suggestions` yield identical instructions, whatever
their `missing_elements` or `meets_requirements`), and when `suggestions` is
non-empty each suggestion occurs in the instructions. -/
theorem claim7_docgen_uses_suggestions_only (a : DocumentWorkflowAgent)
    (O : Nat → List OutlineSection) (V : Nat → OutlineCriteria) (D : DocumentContent)
    (t r c : String) (k : Nat) (hk : k < a.max_retries)
    (hrej : ∀ j, j < k → (V j).meets_requirements = false)
    (hacc : (V k).meets_requirements = true) :
    (∀ outline (v₁ v₂ : OutlineCriteria), v₁.suggestions = v₂.suggestions →
      generate_document_prompt outline (some v₁) =
        generate_document_prompt outline (some v₂)) ∧
    (∀ outline (v : OutlineCriteria) s, s ∈ v.suggestions →
      SubstrOf s (generate_document_prompt outline (some v))) ∧
    Event.docCall (some (O k)) (some (V k)) ∈ (run a (okPort O V D) t r c).2 := by
  refine ⟨?_, ?_, ?_⟩
  · intro outline v₁ v₂ hsugg
    simp only [generate_document_prompt, hsugg]
  · intro outline v s hs
    have hne : v.suggestions ≠ [] := by
      intro h0
      rw [h0] at hs
      exact absurd hs (List.not_mem_nil s)
    simp only [generate_document_prompt]
    rw [if_neg hne]
    exact (substrOf_suggestionLines hs).append_left
      (documentBasePrompt outline ++ "\nPlease incorporate these suggestions:\n")
  · have hmain := run_accept a (okPort O V D) t r c O V D k hk
      (fun j _ => ⟨rfl, rfl⟩) hrej hacc rfl
    have h2 : (run a (okPort O V D) t r c).2 =
        (List.range (k + 1)).flatMap (cycleEvents O V t r c)
          ++ [.notice "\nOutline meets all requirements!",
              .notice "\nGenerating final document...",
              .docCall (some (O k)) (some (V k))] := by rw [hmain]
    rw [h2]
    simp

theorem claim7_witness :
    generate_document_prompt (some (wO 0)) (some ⟨true, ["gap"], ["tighten wording"]⟩) =
      generate_document_prompt (some (wO 0)) (some ⟨false, [], ["tighten wording"]⟩) ∧
    SubstrOf "tighten wording"
      (generate_document_prompt (some (wO 0)) (some ⟨true, ["gap"], ["tighten wording"]⟩)) ∧
    Event.docCall (some (wO 1)) (some (wV 1)) ∈
      (run ⟨[], 2⟩ (okPort wO wV wD) "T" "R" "C").2 := by
  have h := claim7_docgen_uses_suggestions_only ⟨[], 2⟩ wO wV wD "T" "R" "C" 1
    (by decide) (by decide) (by decide)
  exact ⟨h.1 (some (wO 0)) ⟨true, ["gap"], ["tighten wording"]⟩
      ⟨false, [], ["tighten wording"]⟩ rfl,
    h.2.1 (some (wO 0)) ⟨true, ["gap"], ["tighten wording"]⟩ "tighten wording"
      (by decide),
    h.2.2⟩

/-- C5: attempts `0..i-1` rejecting, the drafting call of attempt `i`
receives feedback `fbAt V i`; at `i = 0` this feedback is empty and the
drafting instructions are exactly the base prompt (no feedback clause
appended); at `i = i'+1` the instructions are the base prompt plus the
`Previous feedback to address` clause carrying text derived from attempt
`i'`'s verdict: the Python `repr` of every element of that verdict's
`missing_elements` and `suggestions` occurs in the instructions, and each
element free of quotes, backslashes and control characters occurs
verbatim. -/
theorem claim5_feedback_threading (a : DocumentWorkflowAgent) (port : Port)
    (t r c : String) (O : Nat → List OutlineSection) (V : Nat → OutlineCriteria)
    (i : Nat) (hi : i < a.max_retries)
    (hresp : ∀ j, j < i → port.outlineResp j = .ok (O j) ∧ port.valResp j = .ok (V j) ∧
      (V j).meets_requirements = false) :
    (draftArgs (run a port t r c).2).get? i = some (t, r, fbAt V i) ∧
    (i = 0 → create_outline_prompt t r (fbAt V 0) = outlineBasePrompt t r) ∧
    (∀ i', i = i' + 1 →
      create_outline_prompt t r (fbAt V i) =
        outlineBasePrompt t r ++ "\nPrevious feedback to address: "
          ++ feedbackString (V i') ∧
      (∀ s, s ∈ (V i').missing_elements ∨ s ∈ (V i').suggestions →
        SubstrOf (pyReprStr s) (create_outline_prompt t r (fbAt V i)) ∧
        (pyPlain s = true →
          SubstrOf s (create_outline_prompt t r (fbAt V i))))) := by
  refine ⟨run_draftArgs a port t r c O V i hi hresp, ?_, ?_⟩
  · intro _
    simp [create_outline_prompt, fbAt]
  · rintro i' rfl
    have hprompt : create_outline_prompt t r (fbAt V (i' + 1)) =
        outlineBasePrompt t r ++ "\nPrevious feedback to address: "
          ++ feedbackString (V i') := by
      show create_outline_prompt t r (feedbackString (V i')) = _
      simp only [create_outline_prompt]
      rw [if_neg (feedbackString_ne_empty (V i'))]
    refine ⟨hprompt, ?_⟩
    intro s hs
    have hrepr : SubstrOf (pyReprStr s)
        (outlineBasePrompt t r ++ "\nPrevious feedback to address: "
          ++ feedbackString (V i')) := by
      rcases hs with hs | hs
      · exact (substrOf_missing_feedbackString
          (substrOf_within_pyStrList (substrOf_repr_pyStrListInner hs))).append_left _
      · exact (substrOf_sugg_feedbackString
          (substrOf_within_pyStrList (substrOf_repr_pyStrListInner hs))).append_left _
    rw [hprompt]
    exact ⟨hrepr, fun hp => (substrOf_self_of_plain hp).trans hrepr⟩

theorem claim5_witness :
    (draftArgs (run ⟨[], 2⟩ (okPort wO wV wD) "T" "R" "C").2).get? 1 =
      some ("T", "R", fbAt wV 1) ∧
    create_outline_prompt "T" "R" (fbAt wV 1) =
      outlineBasePrompt "T" "R" ++ "\nPrevious feedback to address: "
        ++ feedbackString (wV 0) ∧
    SubstrOf "examples" (create_outline_prompt "T" "R" (fbAt wV 1)) := by
  have h := claim5_feedback_threading ⟨[], 2⟩ (okPort wO wV wD) "T" "R" "C" wO wV 1
    (by decide)
    (fun j hj => by
      have hj0 : j = 0 := by omega
      subst hj0
      exact ⟨rfl, rfl, rfl⟩)
  obtain ⟨h1, _, h3⟩ := h
  obtain ⟨hp, hsub⟩ := h3 0 rfl
  exact ⟨h1, hp, (hsub "examples" (Or.inl (by decide))).2 (by decide)⟩

/-- C4 (amended): for every attempt `i'+1 > 0`, the feedback passed to the
outline-drafting call is `f"{prev.missing_elements}\n{prev.suggestions}"`:
the Python list display of the previous verdict's `missing_elements` (each
element quoted, comma-separated, in square brackets), a newline, then the
list display of its `suggestions` — not a plain newline-join of the
elements. -/
theorem claim4_feedback_is_rendered_lists (a : DocumentWorkflowAgent) (port : Port)
    (t r c : String) (O : Nat → List OutlineSection) (V : Nat → OutlineCriteria)
    (i' : Nat) (hi : i' + 1 < a.max_retries)
    (hresp : ∀ j, j < i' + 1 → port.outlineResp j = .ok (O j) ∧
      port.valResp j = .ok (V j) ∧ (V j).meets_requirements = false) :
    (draftArgs (run a port t r c).2).get? (i' + 1) =
      some (t, r, pyStrList (V i').missing_elements ++ "\n"
        ++ pyStrList (V i').suggestions) :=
  run_draftArgs a port t r c O V (i' + 1) hi hresp

/-- C4 counterexample: in a concrete run (`max_retries = 2`, attempt 0
rejected with `missing_elements = ["examples"]` and
`suggestions = ["add case study"]`), the feedback the attempt-1 draft call
actually receives renders the two lists with brackets and quotes, which
differs from the newline-join of their elements that the claim states. -/
theorem claim4_counterexample :
    (draftArgs (run ⟨[], 2⟩ (okPort wO wV wD) "T" "R" "C").2).get? 1 =
      some ("T", "R", "[\x27examples\x27]\n[\x27add case study\x27]") ∧
    "[\x27examples\x27]\n[\x27add case study\x27]" ≠ specFeedbackJoin (wV 0) := by
  exact ⟨rfl, by decide⟩

theorem claim4_witness :
    (draftArgs (run ⟨[], 2⟩ (okPort wO wV wD) "T" "R" "C").2).get? 1 =
      some ("T", "R", pyStrList (wV 0).missing_elements ++ "\n"
        ++ pyStrList (wV 0).suggestions) :=
  claim4_feedback_is_rendered_lists ⟨[], 2⟩ (okPort wO wV wD) "T" "R" "C" wO wV 0
    (by decide)
    (fun j hj => by
      have hj0 : j = 0 := by omega
      subst hj0
      exact ⟨rfl, rfl, rfl⟩)

/-- C6: with attempts `0..k-1` rejecting, if the Generation Port call at
attempt `k` fails — the draft call, the validation call, or (after an
acceptance at `k`) the document-generation call — then `run` fails with that
same error, the failing call is the last port call in the trace (so no
further Generation Port call and no retry of the failed call occur), and the
only event after it is the `Error in workflow` diagnostic notice printed
before re-raising. -/
theorem claim6_error_propagation (a : DocumentWorkflowAgent) (port : Port)
    (t r c : String) (O : Nat → List OutlineSection) (V : Nat → OutlineCriteria)
    (k : Nat) (e : GenError) (hk : k < a.max_retries)
    (hresp : ∀ j, j < k → port.outlineResp j = .ok (O j) ∧ port.valResp j = .ok (V j) ∧
      (V j).meets_requirements = false) :
    (port.outlineResp k = .error e →
      run a port t r c =
        (.error e,
          (List.range k).flatMap (cycleEvents O V t r c)
            ++ [.notice (attemptNoticeStr k), .draftCall t r (fbAt V k),
                .notice ("Error in workflow: " ++ e.message)])) ∧
    (port.outlineResp k = .ok (O k) → port.valResp k = .error e →
      run a port t r c =
        (.error e,
          (List.range k).flatMap (cycleEvents O V t r c)
            ++ [.notice (attemptNoticeStr k), .draftCall t r (fbAt V k),
                .notice (createdNoticeStr k (O k)), .notice "Validating outline...",
                .validateCall (O k) c,
                .notice ("Error in workflow: " ++ e.message)])) ∧
    (port.outlineResp k = .ok (O k) → port.valResp k = .ok (V k) →
      (V k).meets_requirements = true → port.docResp = .error e →
      run a port t r c =
        (.error e,
          (List.range (k + 1)).flatMap (cycleEvents O V t r c)
            ++ [.notice "\nOutline meets all requirements!",
                .notice "\nGenerating final document...",
                .docCall (some (O k)) (some (V k)),
                .notice ("Error in workflow: " ++ e.message)])) := by
  have hadv : loopRun a port t r c 0 none none a.max_retries =
      ((loopRun a port t r c k (oState O k) (vState V k) (a.max_retries - k)).1,
        (List.range' 0 (k - 0)).flatMap (cycleEvents O V t r c)
          ++ (loopRun a port t r c k (oState O k) (vState V k) (a.max_retries - k)).2) :=
    loopRun_advance a port t r c O V k hk a.max_retries 0 (by omega) (by omega)
      (fun j _ hj2 => hresp j hj2)
  obtain ⟨r', hr'⟩ : ∃ r', a.max_retries - k = r' + 1 := ⟨a.max_retries - k - 1, by omega⟩
  refine ⟨?_, ?_, ?_⟩
  · intro hOe
    have hloop : loopRun a port t r c 0 none none a.max_retries =
        (.error e,
          (List.range' 0 (k - 0)).flatMap (cycleEvents O V t r c)
            ++ [.notice (attemptNoticeStr k), .draftCall t r (fbAt V k)]) := by
      rw [hadv, hr',
        loopRun_unfold_drafterr a port t r c k r' (oState O k) (vState V k) e hOe,
        feedbackOf_vState]
    rw [run_of_loop_error a port t r c e _ hloop, List.range_eq_range']
    simp [List.append_assoc]
  · intro hOk hVe
    have hloop : loopRun a port t r c 0 none none a.max_retries =
        (.error e,
          (List.range' 0 (k - 0)).flatMap (cycleEvents O V t r c)
            ++ [.notice (attemptNoticeStr k), .draftCall t r (fbAt V k),
                .notice (createdNoticeStr k (O k)), .notice "Validating outline...",
                .validateCall (O k) c]) := by
      rw [hadv, hr',
        loopRun_unfold_valerr a port t r c k r' (oState O k) (vState V k) (O k) e hOk hVe,
        feedbackOf_vState]
    rw [run_of_loop_error a port t r c e _ hloop, List.range_eq_range']
    simp [List.append_assoc]
  · intro hOk hVk hacc hDe
    have hloop : loopRun a port t r c 0 none none a.max_retries =
        (.error e,
          (List.range' 0 (k - 0)).flatMap (cycleEvents O V t r c)
            ++ ([.notice (attemptNoticeStr k), .draftCall t r (fbAt V k),
                  .notice (createdNoticeStr k (O k)), .notice "Validating outline...",
                  .validateCall (O k) c, .notice (validationNoticeStr (V k)),
                  .notice "\nOutline meets all requirements!"]
                ++ [.notice "\nGenerating final document...",
                    .docCall (some (O k)) (some (V k))])) := by
      rw [hadv, hr',
        loopRun_unfold_accept a port t r c k r' (oState O k) (vState V k) (O k) (V k)
          hOk hVk hacc,
        feedbackOf_vState, step3_err port (some (O k)) (some (V k)) e hDe]
    rw [run_of_loop_error a port t r c e _ hloop]
    rw [List.range_succ, List.flatMap_append, List.range_eq_range']
    simp [cycleEvents, List.append_assoc]

theorem claim6_witness :
    run ⟨[], 3⟩
        (Port.mk (fun i => if i = 0 then .ok (wO 0) else .error wE)
          (fun i => .ok (wVfail i)) (.ok wD)) "T" "R" "C" =
      (.error wE,
        (List.range 1).flatMap (cycleEvents wO wVfail "T" "R" "C")
          ++ [.notice (attemptNoticeStr 1), .draftCall "T" "R" (fbAt wVfail 1),
              .notice ("Error in workflow: " ++ wE.message)]) :=
  (claim6_error_propagation ⟨[], 3⟩
    (Port.mk (fun i => if i = 0 then .ok (wO 0) else .error wE)
      (fun i => .ok (wVfail i)) (.ok wD)) "T" "R" "C" wO wVfail 1 wE (by decide)
    (fun j hj => by
      have hj0 : j = 0 := by omega
      subst hj0
      exact ⟨rfl, rfl, rfl⟩)).1 rfl

end DocWorkflow
